import Mathlib

/-!
# Verification of the tarkov-server-locator tailing engine (`src/main.py`)

This file is a shallow embedding of the program in `src/main.py` and proofs
about it.  The program tails a continuously appended log file, detects log
rotation, parses matchmaking-lobby lines, geolocates the IP and posts a
notification for live lines.

The embedding models the external world (the file handle, the rotation
probes, the network) as explicit inputs:

* one `ReadResult` per `f.readline()` call on the current handle
  (`lineOk s` = a nonempty line `s` was returned, `decodeErr` = the call
  raised `UnicodeDecodeError`, `eof` = the empty string was returned);
* one `OpenResult` per `open_log_file()` call made by a rotation probe,
  supplied as a stream `probes : Nat → OpenResult` consumed in order;
* the geolocation HTTP call as a function `String → LookupResult`.

`log_follow` below is a step-for-step transcription of the generator
`log_follow` of `src/main.py` (lines 113-158): same state variables, same
counter threshold, same branch structure.  It returns the observable event
log (yielded lines with their `is_live_session` tag, sleeps, probe opens,
handle closes) together with `some finalState`, or `none` when an exception
escaped the generator (an `IoError` raised by a rotation probe's
`open_log_file`, which the source does not catch).
-/

/-- Result of one `f.readline()` call on the current handle.
`lineOk s` stands for a nonempty returned string (real log lines always end
in a newline, so a returned line is empty exactly at end-of-stream);
`decodeErr` stands for the call raising `UnicodeDecodeError`;
`eof` stands for the empty string, i.e. end-of-stream. -/
inductive ReadResult
  | lineOk (s : String)
  | decodeErr
  | eof
deriving DecidableEq

/-- Result of one `open_log_file()` call made by a rotation probe:
`opened name` = it returned a handle on the file called `name`;
`ioError` = it raised (directory enumeration failed, or
`win32file.CreateFile` with `OPEN_EXISTING` raised because the file does
not exist yet). -/
inductive OpenResult
  | opened (name : String)
  | ioError
deriving DecidableEq

/-- The mutable state of the generator `log_follow` (src/main.py:114-118):
the current file name `f_name`, the consecutive-empty-read counter
`no_new_lines_counter` and the `scanned_through_file` flag. -/
structure TailState where
  f_name : String
  no_new_lines_counter : Nat
  scanned_through_file : Bool
deriving DecidableEq

/-- Observable events of one run of the tail loop:
`yielded s live` = the generator yielded `(s, live)`;
`slept` = `await asyncio.sleep(1)` ran;
`probed o adopted` = a rotation probe called `open_log_file()` with result
`o`, and `adopted` says whether the probe resolved a different path;
`closedCurrent` = `f.close()` on the old handle during adoption;
`closedProbe` = `f_new.close()` on a same-path probe handle (it is never
read from). -/
inductive LogEntry
  | yielded (line : String) (isLive : Bool)
  | slept
  | probed (o : OpenResult) (adopted : Bool)
  | closedCurrent
  | closedProbe
deriving DecidableEq

/-- Embedding of the generator `log_follow` (src/main.py:113-158).

`reads` supplies the result of each successive `f.readline()` call (on
whichever handle is current at that point), `probes k, probes (k+1), ...`
supply the results of successive rotation-probe `open_log_file()` calls.
The run is observed for exactly `reads.length` readline calls.

Returns the event log and `some` final state, or `none` if a rotation
probe's `open_log_file` raised: the source wraps only `f.readline()` in a
`try`, so that exception escapes the generator. -/
def log_follow (st : TailState) (reads : List ReadResult)
    (probes : Nat → OpenResult) (k : Nat) : List LogEntry × Option TailState :=
  match reads with
  | [] => ([], some st)
  | ReadResult.lineOk s :: rs =>
      -- a line was read: counter := 0, yield (line, scanned_through_file)
      let next := log_follow { st with no_new_lines_counter := 0 } rs probes k
      (LogEntry.yielded s st.scanned_through_file :: next.1, next.2)
  | ReadResult.decodeErr :: rs =>
      -- UnicodeDecodeError: line := "DECODE_ERROR", which is nonempty,
      -- so the loop yields it like an ordinary line (src/main.py:126-129)
      let next := log_follow { st with no_new_lines_counter := 0 } rs probes k
      (LogEntry.yielded "DECODE_ERROR" st.scanned_through_file :: next.1, next.2)
  | ReadResult.eof :: rs =>
      -- EOF: scanned_through_file := True, counter += 1, break inner loop
      if st.no_new_lines_counter + 1 > 30 then
        -- rotation probe (src/main.py:142-154); counter := 0 first
        match probes k with
        | OpenResult.ioError =>
            -- open_log_file raised; nothing catches it: the generator dies
            ([LogEntry.probed OpenResult.ioError false], none)
        | OpenResult.opened newName =>
            if newName = st.f_name then
              -- same file: discard the probe handle, keep reading f
              let next := log_follow ⟨st.f_name, 0, true⟩ rs probes (k + 1)
              (LogEntry.probed (OpenResult.opened newName) false ::
                LogEntry.closedProbe :: LogEntry.slept :: next.1, next.2)
            else
              -- new file: close old handle, adopt, scanned_through_file := False
              let next := log_follow ⟨newName, 0, false⟩ rs probes (k + 1)
              (LogEntry.probed (OpenResult.opened newName) true ::
                LogEntry.closedCurrent :: LogEntry.slept :: next.1, next.2)
      else
        let next := log_follow ⟨st.f_name, st.no_new_lines_counter + 1, true⟩ rs probes k
        (LogEntry.slept :: next.1, next.2)

/-- The very first `open_log_file()` before the loop (src/main.py:114):
a failure there is fatal (nothing catches it; the spec calls this the
fatal `NotFoundError`/`IoError` at startup). -/
def startTail : OpenResult → Option TailState
  | OpenResult.opened n => some ⟨n, 0, false⟩
  | OpenResult.ioError => none

/-- The `(line, is_live_session)` pairs yielded during a run. -/
def yieldsOf : List LogEntry → List (String × Bool)
  | [] => []
  | LogEntry.yielded s b :: es => (s, b) :: yieldsOf es
  | _ :: es => yieldsOf es

/-- Number of rotation probes (`open_log_file` calls from inside the loop)
recorded in a run. -/
def probeCount : List LogEntry → Nat
  | [] => 0
  | LogEntry.probed _ _ :: es => probeCount es + 1
  | _ :: es => probeCount es

/-- Reference tagging: each line carries the flag "an end-of-stream was
already observed before it was read" (starting from `seen`).  This is the
spec's historical/live distinction. -/
def tagRef (seen : Bool) : List ReadResult → List (String × Bool)
  | [] => []
  | ReadResult.lineOk s :: rs => (s, seen) :: tagRef seen rs
  | ReadResult.decodeErr :: rs => ("DECODE_ERROR", seen) :: tagRef seen rs
  | ReadResult.eof :: rs => tagRef true rs

/-- Whether a read sequence contains an end-of-stream observation. -/
def hasEofR : List ReadResult → Bool
  | [] => false
  | ReadResult.eof :: _ => true
  | _ :: rs => hasEofR rs

/-! ## Unfolding lemmas for `log_follow` -/

lemma lf_nil (st : TailState) (probes : Nat → OpenResult) (k : Nat) :
    log_follow st [] probes k = ([], some st) := rfl

lemma lf_line (f : String) (c : Nat) (sc : Bool) (s : String)
    (rs : List ReadResult) (probes : Nat → OpenResult) (k : Nat) :
    log_follow ⟨f, c, sc⟩ (ReadResult.lineOk s :: rs) probes k
      = (LogEntry.yielded s sc :: (log_follow ⟨f, 0, sc⟩ rs probes k).1,
         (log_follow ⟨f, 0, sc⟩ rs probes k).2) := rfl

lemma lf_decode (f : String) (c : Nat) (sc : Bool)
    (rs : List ReadResult) (probes : Nat → OpenResult) (k : Nat) :
    log_follow ⟨f, c, sc⟩ (ReadResult.decodeErr :: rs) probes k
      = (LogEntry.yielded "DECODE_ERROR" sc :: (log_follow ⟨f, 0, sc⟩ rs probes k).1,
         (log_follow ⟨f, 0, sc⟩ rs probes k).2) := rfl

lemma lf_eof_small (f : String) (c : Nat) (sc : Bool)
    (rs : List ReadResult) (probes : Nat → OpenResult) (k : Nat)
    (hc : c + 1 ≤ 30) :
    log_follow ⟨f, c, sc⟩ (ReadResult.eof :: rs) probes k
      = (LogEntry.slept :: (log_follow ⟨f, c + 1, true⟩ rs probes k).1,
         (log_follow ⟨f, c + 1, true⟩ rs probes k).2) := by
  simp only [log_follow]
  rw [if_neg (by omega)]

lemma lf_eof_probe_same (f : String) (c : Nat) (sc : Bool)
    (rs : List ReadResult) (probes : Nat → OpenResult) (k : Nat)
    (hc : 30 ≤ c) (hk : probes k = OpenResult.opened f) :
    log_follow ⟨f, c, sc⟩ (ReadResult.eof :: rs) probes k
      = (LogEntry.probed (OpenResult.opened f) false :: LogEntry.closedProbe ::
          LogEntry.slept :: (log_follow ⟨f, 0, true⟩ rs probes (k + 1)).1,
         (log_follow ⟨f, 0, true⟩ rs probes (k + 1)).2) := by
  simp only [log_follow]
  rw [if_pos (by omega : 30 < c + 1), hk]
  dsimp only
  rw [if_pos rfl]

lemma lf_eof_probe_new (f : String) (c : Nat) (sc : Bool) (nn : String)
    (rs : List ReadResult) (probes : Nat → OpenResult) (k : Nat)
    (hc : 30 ≤ c) (hk : probes k = OpenResult.opened nn) (hne : nn ≠ f) :
    log_follow ⟨f, c, sc⟩ (ReadResult.eof :: rs) probes k
      = (LogEntry.probed (OpenResult.opened nn) true :: LogEntry.closedCurrent ::
          LogEntry.slept :: (log_follow ⟨nn, 0, false⟩ rs probes (k + 1)).1,
         (log_follow ⟨nn, 0, false⟩ rs probes (k + 1)).2) := by
  simp only [log_follow]
  rw [if_pos (by omega : 30 < c + 1), hk]
  dsimp only
  rw [if_neg hne]

lemma lf_eof_probe_fail (f : String) (c : Nat) (sc : Bool)
    (rs : List ReadResult) (probes : Nat → OpenResult) (k : Nat)
    (hc : 30 ≤ c) (hk : probes k = OpenResult.ioError) :
    log_follow ⟨f, c, sc⟩ (ReadResult.eof :: rs) probes k
      = ([LogEntry.probed OpenResult.ioError false], none) := by
  simp only [log_follow]
  rw [if_pos (by omega : 30 < c + 1), hk]

/-! ## The file handle model (`open_log_file`, src/main.py:83-110)

`open_log_file` opens the located file with shared access and wraps the OS
handle in a UTF-8 text stream.  The `f.seek(0, os.SEEK_END)` call is
commented out in the source (line 107), so the stream starts at byte
offset 0.  A file is modelled as the list of complete lines currently in
it, each either decodable text (nonempty, newline-terminated in reality)
or a byte sequence that raises `UnicodeDecodeError` when decoded. -/

/-- One physical line of the log file: decodable text, or bytes that fail
UTF-8 decoding. -/
inductive RawLine
  | text (s : String)
  | undecodable
deriving DecidableEq

/-- What `f.readline()` reports for a given raw line. -/
def RawLine.toResult : RawLine → ReadResult
  | RawLine.text s => ReadResult.lineOk s
  | RawLine.undecodable => ReadResult.decodeErr

/-- The string the loop ends up yielding for a given raw line: the line
itself, or the `"DECODE_ERROR"` sentinel (src/main.py:129). -/
def RawLine.render : RawLine → String
  | RawLine.text s => s
  | RawLine.undecodable => "DECODE_ERROR"

/-- An open text stream: the file's lines and the current line offset. -/
structure Handle where
  content : List RawLine
  pos : Nat
deriving DecidableEq

/-- One `f.readline()` call: the line at the current offset (advancing past
it), or end-of-stream.  An undecodable line raises `UnicodeDecodeError`
and the stream continues from the next offset. -/
def Handle.readline (h : Handle) : ReadResult × Handle :=
  match h.content.get? h.pos with
  | none => (ReadResult.eof, h)
  | some (RawLine.text s) => (ReadResult.lineOk s, ⟨h.content, h.pos + 1⟩)
  | some RawLine.undecodable => (ReadResult.decodeErr, ⟨h.content, h.pos + 1⟩)

/-- Embedding of `open_log_file` (src/main.py:83-110) restricted to its
stream-position effect: the returned handle reads from offset 0 because
the seek-to-end on line 107 is commented out. -/
def open_log_file (content : List RawLine) : Handle := ⟨content, 0⟩

/-- The sequence of `readline` results produced by draining a handle from
its current position through the first end-of-stream. -/
def readsFrom (h : Handle) : List ReadResult :=
  (h.content.drop h.pos).map RawLine.toResult ++ [ReadResult.eof]

/-! ## Run-shape helper lemmas -/

/-- Reading a block of consecutive available lines (counter pinned at 0). -/
lemma lf_text_run (ls : List String) (f : String) (sc : Bool)
    (rest : List ReadResult) (probes : Nat → OpenResult) (k : Nat) :
    log_follow ⟨f, 0, sc⟩ (ls.map ReadResult.lineOk ++ rest) probes k
      = (ls.map (fun l => LogEntry.yielded l sc) ++ (log_follow ⟨f, 0, sc⟩ rest probes k).1,
         (log_follow ⟨f, 0, sc⟩ rest probes k).2) := by
  induction ls with
  | nil => simp
  | cons l ls ih =>
      simp only [List.map_cons, List.cons_append, lf_line, ih, List.nil_append]

/-- Reading a block of consecutive raw lines from the current handle. -/
lemma lf_raw_run (ls : List RawLine) (f : String) (sc : Bool)
    (rest : List ReadResult) (probes : Nat → OpenResult) (k : Nat) :
    log_follow ⟨f, 0, sc⟩ (ls.map RawLine.toResult ++ rest) probes k
      = (ls.map (fun l => LogEntry.yielded l.render sc) ++ (log_follow ⟨f, 0, sc⟩ rest probes k).1,
         (log_follow ⟨f, 0, sc⟩ rest probes k).2) := by
  induction ls with
  | nil => simp
  | cons l ls ih =>
      cases l with
      | text s =>
          simp only [List.map_cons, List.cons_append, RawLine.toResult, RawLine.render,
            lf_line, ih]
      | undecodable =>
          simp only [List.map_cons, List.cons_append, RawLine.toResult, RawLine.render,
            lf_decode, ih]

/-- A run of `m` empty reads below the probe threshold: `m` sleeps, the
counter advances by `m`, nothing else happens. -/
lemma lf_eofs_true (m : Nat) (f : String) (c : Nat)
    (rest : List ReadResult) (probes : Nat → OpenResult) (k : Nat)
    (hc : c + m ≤ 30) :
    log_follow ⟨f, c, true⟩ (List.replicate m ReadResult.eof ++ rest) probes k
      = (List.replicate m LogEntry.slept ++ (log_follow ⟨f, c + m, true⟩ rest probes k).1,
         (log_follow ⟨f, c + m, true⟩ rest probes k).2) := by
  induction m generalizing c with
  | zero => simp
  | succ m ih =>
      rw [List.replicate_succ, List.cons_append,
        lf_eof_small f c true _ probes k (by omega),
        ih (c + 1) (by omega)]
      have hcc : c + 1 + m = c + (m + 1) := by omega
      rw [hcc, List.replicate_succ, List.cons_append]

/-! ## C1: the historical/live tagging invariant -/

/-- C1: for one `LogSource` (every rotation probe resolves the current
path, so the source is never replaced — covering appends in bursts with
pauses, i.e. arbitrary interleavings of lines and empty reads): every line
yielded before the first end-of-stream on the current handle is tagged
`isLive = false`, and every line yielded after it is tagged
`isLive = true` (`yieldsOf … = tagRef …`); moreover the final
`scanned_through_file` is `st.scanned_through_file || hasEofR reads`, so
once `scanned_through_file` is true it never reverts to false for this
source, and the source (`f_name`) is unchanged. -/
theorem c1_tagging_invariant (st : TailState) (reads : List ReadResult)
    (probes : Nat → OpenResult) (k : Nat)
    (hp : ∀ i, probes i = OpenResult.opened st.f_name) :
    yieldsOf (log_follow st reads probes k).1 = tagRef st.scanned_through_file reads
    ∧ ∃ fin, (log_follow st reads probes k).2 = some fin
        ∧ fin.scanned_through_file = (st.scanned_through_file || hasEofR reads)
        ∧ fin.f_name = st.f_name := by
  obtain ⟨f, c, sc⟩ := st
  simp only at hp
  induction reads generalizing c sc k with
  | nil =>
      exact ⟨rfl, ⟨f, c, sc⟩, rfl, by simp [hasEofR], rfl⟩
  | cons r rs ih =>
      cases r with
      | lineOk s =>
          obtain ⟨h1, fin, h2, h3, h4⟩ := ih k 0 sc
          rw [lf_line]
          exact ⟨by simp [yieldsOf, tagRef, h1], fin, h2, by simpa [hasEofR] using h3, h4⟩
      | decodeErr =>
          obtain ⟨h1, fin, h2, h3, h4⟩ := ih k 0 sc
          rw [lf_decode]
          exact ⟨by simp [yieldsOf, tagRef, h1], fin, h2, by simpa [hasEofR] using h3, h4⟩
      | eof =>
          by_cases hc : c + 1 ≤ 30
          · obtain ⟨h1, fin, h2, h3, h4⟩ := ih k (c + 1) true
            rw [lf_eof_small f c sc rs probes k hc]
            exact ⟨by simp [yieldsOf, tagRef, h1], fin, h2,
              by simp [hasEofR] at h3 ⊢; simpa using h3, h4⟩
          · obtain ⟨h1, fin, h2, h3, h4⟩ := ih (k + 1) 0 true
            rw [lf_eof_probe_same f c sc rs probes k (by omega) (hp k)]
            exact ⟨by simp [yieldsOf, tagRef, h1], fin, h2,
              by simp [hasEofR] at h3 ⊢; simpa using h3, h4⟩

/-- Witness for C1 at a concrete input: one line before the first EOF
(tagged historical), then lines after it (tagged live), with an
intervening pause. -/
theorem c1_tagging_invariant_witness :
    yieldsOf (log_follow ⟨"app.log", 0, false⟩
        [ReadResult.lineOk "a", ReadResult.eof, ReadResult.lineOk "b",
         ReadResult.eof, ReadResult.eof, ReadResult.lineOk "c"]
        (fun _ => OpenResult.opened "app.log") 0).1
      = tagRef false
          [ReadResult.lineOk "a", ReadResult.eof, ReadResult.lineOk "b",
           ReadResult.eof, ReadResult.eof, ReadResult.lineOk "c"]
    ∧ ∃ fin, (log_follow ⟨"app.log", 0, false⟩
        [ReadResult.lineOk "a", ReadResult.eof, ReadResult.lineOk "b",
         ReadResult.eof, ReadResult.eof, ReadResult.lineOk "c"]
        (fun _ => OpenResult.opened "app.log") 0).2 = some fin
        ∧ fin.scanned_through_file
            = (false || hasEofR
                [ReadResult.lineOk "a", ReadResult.eof, ReadResult.lineOk "b",
                 ReadResult.eof, ReadResult.eof, ReadResult.lineOk "c"])
        ∧ fin.f_name = "app.log" :=
  c1_tagging_invariant ⟨"app.log", 0, false⟩
    [ReadResult.lineOk "a", ReadResult.eof, ReadResult.lineOk "b",
     ReadResult.eof, ReadResult.eof, ReadResult.lineOk "c"]
    (fun _ => OpenResult.opened "app.log") 0 (fun _ => rfl)

/-! ## C3: a rotation-probe open failure is not caught -/

/-- C3 (code bug): the spec says a failure of a rotation probe's
`open_log_file` must be treated as "no rotation yet" and retried, and that
only the very first open is fatal.  The code has no `try`/`except` around
the probe's `open_log_file()` call (src/main.py:144): when the probe
raises after 31 consecutive empty reads, the exception escapes the
generator and the tail loop dies (`none`).  The first conjunct evaluates
the code at that failing input; the others record that the very first
open is indeed fatal on failure and otherwise starts the loop. -/
theorem c3_probe_failure_crashes :
    (log_follow ⟨"old", 0, true⟩ (List.replicate 31 ReadResult.eof)
        (fun _ => OpenResult.ioError) 0).2 = none
    ∧ startTail OpenResult.ioError = none
    ∧ startTail (OpenResult.opened "new") = some ⟨"new", 0, false⟩ := by
  exact ⟨by decide, rfl, rfl⟩

/-! ## C2: behavior across a rotation -/

/-- Counterexample to C2 as stated: after 31 consecutive empty reads and a
probe resolving a different path (`"new" ≠ "old"`), the first line read
from the new file is yielded with `is_live_session = false` — the claim
says it is tagged live (`true`).  The source sets
`scanned_through_file = False` on adoption (src/main.py:151) and the yield
tag is `scanned_through_file` (src/main.py:139). -/
theorem c2_first_new_line_not_live :
    yieldsOf (log_follow ⟨"old", 0, true⟩
        (List.replicate 31 ReadResult.eof ++ [ReadResult.lineOk "x"])
        (fun _ => OpenResult.opened "new") 0).1
      = [("x", false)]
    ∧ (false : Bool) ≠ true := by
  exact ⟨by decide, by decide⟩

/-- C2 as amended: with `st.no_new_lines_counter = 0`, after the old file's
remaining lines, 31 consecutive empty reads and a probe resolving
`newName ≠ st.f_name`, the engine emits every old-file line exactly once
(nothing re-emitted or dropped), closes the old handle
(`closedCurrent`), switches to the new file (final state has
`f_name = newName`), and tags the first line yielded from the new file
`isLive = false` (historical, not live): `scanned_through_file` restarts
at `false` for the adopted source. -/
theorem c2_rotation_amended (st : TailState) (oldLines : List String)
    (s newName : String) (probes : Nat → OpenResult) (k : Nat)
    (hc : st.no_new_lines_counter = 0)
    (hk : probes k = OpenResult.opened newName)
    (hne : newName ≠ st.f_name) :
    log_follow st
        (oldLines.map ReadResult.lineOk
          ++ (List.replicate 31 ReadResult.eof ++ [ReadResult.lineOk s])) probes k
      = (oldLines.map (fun l => LogEntry.yielded l st.scanned_through_file)
          ++ (List.replicate 30 LogEntry.slept
            ++ [LogEntry.probed (OpenResult.opened newName) true, LogEntry.closedCurrent,
                LogEntry.slept, LogEntry.yielded s false]),
         some ⟨newName, 0, false⟩) := by
  obtain ⟨f, c, sc⟩ := st
  simp only [TailState.no_new_lines_counter] at hc
  simp only [TailState.f_name] at hne
  simp only [TailState.scanned_through_file]
  subst hc
  rw [lf_text_run]
  have e31 : (List.replicate 31 ReadResult.eof ++ [ReadResult.lineOk s])
      = ReadResult.eof :: (List.replicate 29 ReadResult.eof
          ++ (ReadResult.eof :: [ReadResult.lineOk s])) := by
    simp [show (31 : Nat) = 1 + 29 + 1 from rfl, List.replicate_add]
  rw [e31, lf_eof_small f 0 sc _ probes k (by omega),
    lf_eofs_true 29 f 1 _ probes k (by omega)]
  rw [show (1 + 29 : Nat) = 30 from rfl,
    lf_eof_probe_new f 30 true newName _ probes k (by omega) hk hne,
    lf_line, lf_nil]
  have r30 : List.replicate 30 LogEntry.slept
      = LogEntry.slept :: List.replicate 29 LogEntry.slept := by
    simp [show (30 : Nat) = 1 + 29 from rfl, List.replicate_add]
  rw [r30]
  simp

/-- Witness for C2's amended theorem at a concrete input: two old lines,
31 empty reads, one line from the adopted new file. -/
theorem c2_rotation_amended_witness :
    log_follow ⟨"old", 0, true⟩
        (["a", "b"].map ReadResult.lineOk
          ++ (List.replicate 31 ReadResult.eof ++ [ReadResult.lineOk "x"]))
        (fun _ => OpenResult.opened "new") 0
      = (["a", "b"].map (fun l => LogEntry.yielded l true)
          ++ (List.replicate 30 LogEntry.slept
            ++ [LogEntry.probed (OpenResult.opened "new") true, LogEntry.closedCurrent,
                LogEntry.slept, LogEntry.yielded "x" false]),
         some ⟨"new", 0, false⟩) :=
  c2_rotation_amended ⟨"old", 0, true⟩ ["a", "b"] "x" "new"
    (fun _ => OpenResult.opened "new") 0 rfl rfl (by decide)

/-! ## C4: same-path probes are harmless, probes fire every 31st empty read -/

/-- Probe count over a run of `n` consecutive empty reads starting from
counter `c ≤ 30`, when every probe resolves the current path. -/
lemma probeCount_eofs (f : String) (probes : Nat → OpenResult)
    (hp : ∀ i, probes i = OpenResult.opened f) (n : Nat) :
    ∀ (c : Nat) (sc : Bool) (k : Nat), c ≤ 30 →
      probeCount (log_follow ⟨f, c, sc⟩ (List.replicate n ReadResult.eof) probes k).1
        = (c + n) / 31 := by
  induction n with
  | zero =>
      intro c sc k hc
      simp only [List.replicate, lf_nil, probeCount]
      omega
  | succ n ih =>
      intro c sc k hc
      rw [List.replicate_succ]
      by_cases h : c = 30
      · subst h
        rw [lf_eof_probe_same f 30 sc _ probes k (by omega) (hp k)]
        simp only [probeCount]
        rw [ih 0 true (k + 1) (by omega)]
        omega
      · rw [lf_eof_small f c sc _ probes k (by omega)]
        simp only [probeCount]
        rw [ih (c + 1) true k (by omega)]
        omega

/-- C4: when a rotation probe resolves the same path, the probe handle is
closed without ever being read from (`closedProbe`; the continuation is
exactly the run on the existing handle, so no line is duplicated or
skipped), the counter is reset to 0, and the engine still sleeps for the
1-second interval before the next read; and a probe occurs exactly once
per 31 consecutive empty reads (`probeCount = n / 31` from a zero
counter). -/
theorem c4_same_path_probe (st : TailState) (rest : List ReadResult)
    (probes : Nat → OpenResult) (k : Nat)
    (hc : st.no_new_lines_counter = 0)
    (hp : ∀ i, probes i = OpenResult.opened st.f_name) :
    log_follow st (List.replicate 31 ReadResult.eof ++ rest) probes k
      = (List.replicate 30 LogEntry.slept
          ++ (LogEntry.probed (OpenResult.opened st.f_name) false :: LogEntry.closedProbe ::
              LogEntry.slept :: (log_follow ⟨st.f_name, 0, true⟩ rest probes (k + 1)).1),
         (log_follow ⟨st.f_name, 0, true⟩ rest probes (k + 1)).2)
    ∧ ∀ n, probeCount (log_follow st (List.replicate n ReadResult.eof) probes k).1 = n / 31 := by
  obtain ⟨f, c, sc⟩ := st
  simp only [TailState.no_new_lines_counter] at hc
  simp only [TailState.f_name] at hp ⊢
  subst hc
  constructor
  · have e31 : List.replicate 31 ReadResult.eof ++ rest
        = ReadResult.eof :: (List.replicate 29 ReadResult.eof
            ++ (ReadResult.eof :: rest)) := by
      simp [show (31 : Nat) = 1 + 29 + 1 from rfl, List.replicate_add]
    rw [e31, lf_eof_small f 0 sc _ probes k (by omega),
      lf_eofs_true 29 f 1 _ probes k (by omega),
      show (1 + 29 : Nat) = 30 from rfl,
      lf_eof_probe_same f 30 true _ probes k (by omega) (hp k)]
    have r30 : List.replicate 30 LogEntry.slept
        = LogEntry.slept :: List.replicate 29 LogEntry.slept := by
      simp [show (30 : Nat) = 1 + 29 from rfl, List.replicate_add]
    rw [r30]
    simp
  · intro n
    simpa using probeCount_eofs f probes hp n 0 sc k (by omega)

/-- Witness for C4 at a concrete input. -/
theorem c4_same_path_probe_witness :
    log_follow ⟨"app.log", 0, false⟩
        (List.replicate 31 ReadResult.eof ++ [ReadResult.lineOk "x"])
        (fun _ => OpenResult.opened "app.log") 0
      = (List.replicate 30 LogEntry.slept
          ++ (LogEntry.probed (OpenResult.opened "app.log") false :: LogEntry.closedProbe ::
              LogEntry.slept :: (log_follow ⟨"app.log", 0, true⟩ [ReadResult.lineOk "x"]
                (fun _ => OpenResult.opened "app.log") 1).1),
         (log_follow ⟨"app.log", 0, true⟩ [ReadResult.lineOk "x"]
           (fun _ => OpenResult.opened "app.log") 1).2)
    ∧ ∀ n, probeCount (log_follow ⟨"app.log", 0, false⟩
        (List.replicate n ReadResult.eof) (fun _ => OpenResult.opened "app.log") 0).1
          = n / 31 :=
  c4_same_path_probe ⟨"app.log", 0, false⟩ [ReadResult.lineOk "x"]
    (fun _ => OpenResult.opened "app.log") 0 rfl (fun _ => rfl)

/-! ## C5: decode errors yield one sentinel and the stream continues -/

/-- C5: a byte sequence that fails UTF-8 decoding makes the loop yield
exactly one `"DECODE_ERROR"` sentinel in its place (tagged with the
current historical/live flag) and the run continues with the remaining
reads — it neither terminates nor raises; and at the handle level an
undecodable line advances the position by one, so subsequent valid lines
are read from the following offset. -/
theorem c5_decode_error_sentinel (st : TailState) (rs : List ReadResult)
    (probes : Nat → OpenResult) (k : Nat) :
    log_follow st (ReadResult.decodeErr :: rs) probes k
      = (LogEntry.yielded "DECODE_ERROR" st.scanned_through_file
          :: (log_follow ⟨st.f_name, 0, st.scanned_through_file⟩ rs probes k).1,
         (log_follow ⟨st.f_name, 0, st.scanned_through_file⟩ rs probes k).2)
    ∧ ∀ (content : List RawLine) (i : Nat), content.get? i = some RawLine.undecodable →
        Handle.readline ⟨content, i⟩ = (ReadResult.decodeErr, ⟨content, i + 1⟩) := by
  constructor
  · obtain ⟨f, c, sc⟩ := st
    exact lf_decode f c sc rs probes k
  · intro content i h
    rw [List.get?_eq_getElem?] at h
    simp [Handle.readline, h]

/-- Witness for C5: an undecodable line followed by a valid line; the
handle-level part instantiated at offset 0 of a two-line file. -/
theorem c5_decode_error_sentinel_witness :
    log_follow ⟨"app.log", 0, true⟩ (ReadResult.decodeErr :: [ReadResult.lineOk "ok"])
        (fun _ => OpenResult.opened "app.log") 0
      = (LogEntry.yielded "DECODE_ERROR" true
          :: (log_follow ⟨"app.log", 0, true⟩ [ReadResult.lineOk "ok"]
              (fun _ => OpenResult.opened "app.log") 0).1,
         (log_follow ⟨"app.log", 0, true⟩ [ReadResult.lineOk "ok"]
           (fun _ => OpenResult.opened "app.log") 0).2)
    ∧ Handle.readline ⟨[RawLine.undecodable, RawLine.text "ok"], 0⟩
        = (ReadResult.decodeErr, ⟨[RawLine.undecodable, RawLine.text "ok"], 1⟩) :=
  ⟨(c5_decode_error_sentinel ⟨"app.log", 0, true⟩ [ReadResult.lineOk "ok"]
      (fun _ => OpenResult.opened "app.log") 0).1,
   (c5_decode_error_sentinel ⟨"app.log", 0, true⟩ [ReadResult.lineOk "ok"]
      (fun _ => OpenResult.opened "app.log") 0).2
      [RawLine.undecodable, RawLine.text "ok"] 0 (by decide)⟩

/-! ## C10: every opened file is read from byte offset 0 -/

/-- C10: `open_log_file` returns a handle at position 0 (the seek-to-end
is commented out in the source), and draining a freshly adopted handle
(state `scanned_through_file = false`, counter 0) emits every line already
present in the file, in order, all tagged historical (`isLive = false`),
before the first end-of-stream. -/
theorem c10_read_from_start (n : String) (content : List RawLine)
    (probes : Nat → OpenResult) (k : Nat) :
    (open_log_file content).pos = 0
    ∧ (log_follow ⟨n, 0, false⟩ (readsFrom (open_log_file content)) probes k).1
        = content.map (fun l => LogEntry.yielded l.render false) ++ [LogEntry.slept] := by
  refine ⟨rfl, ?_⟩
  show (log_follow ⟨n, 0, false⟩
      ((content.drop 0).map RawLine.toResult ++ [ReadResult.eof]) probes k).1 = _
  rw [List.drop_zero, lf_raw_run, lf_eof_small n 0 false [] probes k (by omega), lf_nil]

/-! ## The line interpreter (`parse_line`, src/main.py:161-176)

`parse_line` runs
`re.search(r"^([^|]*).*Status: Busy, Ip: ([^,]+).*shortId: (....)", line)`.
Because the pattern is anchored with `^` (and `re.MULTILINE` is off), a
search is a match at position 0.  The functions below implement exactly
Python's leftmost-greedy backtracking order for this one pattern, over the
line's characters: an earlier quantifier's preference dominates a later
one's, each greedy quantifier prefers the longest length first, and `.`
matches any character except a newline while the negated classes `[^|]`
and `[^,]` do match a newline. -/

/-- Try `f n, f (n-1), ..., f 0` and return the first `some` — the
greedy (longest-first) preference order of a quantifier. -/
def tryFromTop {α : Type} (f : Nat → Option α) : Nat → Option α
  | 0 => f 0
  | n + 1 =>
    match f (n + 1) with
    | some r => some r
    | none => tryFromTop f n

/-- No newline in the given characters (`.*` cannot cross a newline). -/
def noNl (l : List Char) : Bool := l.all fun c => c != '\n'

def statusMarker : List Char := "Status: Busy, Ip: ".data

def shortIdMarker : List Char := "shortId: ".data

/-- Match `.*shortId: (....)` against `cs`, returning group 3. -/
def matchShortIdTail (cs : List Char) : Option String :=
  tryFromTop (fun q =>
    let rest := cs.drop q
    if noNl (cs.take q) && shortIdMarker.isPrefixOf rest then
      let four := (rest.drop shortIdMarker.length).take 4
      if (four.length == 4) && noNl four then some (String.mk four) else none
    else none) cs.length

/-- Match `([^,]+).*shortId: (....)` against `cs`, returning groups 2, 3. -/
def matchIpTail (cs : List Char) : Option (String × String) :=
  tryFromTop (fun k =>
    if k == 0 then none
    else
      match matchShortIdTail (cs.drop k) with
      | some g3 => some (String.mk (cs.take k), g3)
      | none => none) (cs.takeWhile fun c => c != ',').length

/-- Match `.*Status: Busy, Ip: ([^,]+).*shortId: (....)` against `cs`. -/
def matchStatusTail (cs : List Char) : Option (String × String) :=
  tryFromTop (fun q =>
    if noNl (cs.take q) && statusMarker.isPrefixOf (cs.drop q) then
      matchIpTail (cs.drop (q + statusMarker.length))
    else none) cs.length

/-- The whole search (src/main.py:162): `^([^|]*)` then the rest; returns
`match.group(1, 2, 3)` — timestamp text, IP, lobby short id — or `none`
when the line does not match. -/
def parse_line_regex (line : String) : Option (String × String × String) :=
  let cs := line.data
  tryFromTop (fun p =>
    match matchStatusTail (cs.drop p) with
    | some (ip, g3) => some (String.mk (cs.take p), ip, g3)
    | none => none) (cs.takeWhile fun c => c != '|').length

/-- A calendar date-time as produced by the timestamp parse. -/
structure PyDateTime where
  year : Nat
  month : Nat
  day : Nat
  hour : Nat
  minute : Nat
  second : Nat
deriving DecidableEq

def digitVal (c : Char) : Option Nat :=
  if c.isDigit then some (c.toNat - '0'.toNat) else none

def natOfDigits (cs : List Char) : Option Nat :=
  cs.foldl (fun acc c =>
    match acc, digitVal c with
    | some n, some d => some (n * 10 + d)
    | _, _ => none) (some 0)

/-- Modelled behavior of the external library call
`dateutil.parser.parse(time_str)` (src/main.py:167; `dateutil` is a
third-party library, not code of this repository) on the shapes this
program feeds it: an ISO `YYYY-MM-DDTHH:MM:SS` timestamp, possibly
followed by tokens of dateutil's default jump set (space, dot, comma),
which the parser skips.  Anything else is `none` (the library would
raise). -/
def dateutilParse (s : String) : Option PyDateTime :=
  let core := (s.data.reverse.dropWhile fun c => c == ' ' || c == '.' || c == ',').reverse
  match core with
  | [y1, y2, y3, y4, '-', mo1, mo2, '-', d1, d2, 'T',
     h1, h2, ':', mi1, mi2, ':', se1, se2] =>
    match natOfDigits [y1, y2, y3, y4], natOfDigits [mo1, mo2], natOfDigits [d1, d2],
          natOfDigits [h1, h2], natOfDigits [mi1, mi2], natOfDigits [se1, se2] with
    | some y, some mo, some d, some h, some mi, some se =>
        some ⟨y, mo, d, h, mi, se⟩
    | _, _, _, _, _, _ => none
  | _ => none

/-- Result of the geolocation GET (src/main.py:169-170):
`response status country` = the service answered with that JSON;
`unreachable` = the HTTP call (or reading its body) raised. -/
inductive LookupResult
  | response (status : String) (country : String)
  | unreachable
deriving DecidableEq

/-- The Discord embed built by `post_location` (src/main.py:187-189). -/
structure Embed where
  title : String
  fields : List (String × String)
deriving DecidableEq

/-- Observable effects of `post_location` (src/main.py:179-195):
whether the previous-session (historical) local log line ran, whether the
live-session local log line ran, and the webhook message sent, if any. -/
structure PostAction where
  loggedPrevious : Bool
  loggedLive : Bool
  webhook : Option Embed
deriving DecidableEq

/-- Embedding of `post_location` (src/main.py:179-195): historical events
are only logged locally and the function returns before any webhook call;
live events are logged and sent to the webhook with title = player name
and the two labeled fields. -/
def post_location (playerName : String) (lobby_id : String) (country : String)
    (_time : PyDateTime) (is_live_session : Bool) : PostAction :=
  if is_live_session then
    { loggedPrevious := false, loggedLive := true,
      webhook := some { title := playerName,
                        fields := [("Lobby ID", lobby_id), ("Country", country)] } }
  else
    { loggedPrevious := true, loggedLive := false, webhook := none }

/-- Outcome of one `parse_line` call (src/main.py:161-176). -/
inductive ParseResult
  | skipped                 -- no regex match: return with no effect
  | timeError               -- dateutil raised on the timestamp (uncaught)
  | netCrash                -- the HTTP lookup raised (uncaught)
  | dropped                 -- non-success status: logged, event dropped
  | posted (act : PostAction)
deriving DecidableEq

/-- Embedding of `parse_line` (src/main.py:161-176).  The geolocation call
is passed in as `lookup`.  Note which failures are handled: a non-matching
line returns silently, a non-success status is logged and dropped; but an
unreachable service (`LookupResult.unreachable`) raises out of the
function — there is no `try`/`except` around the `requests.get`. -/
def parse_line (playerName : String) (line : String) (is_live_session : Bool)
    (lookup : String → LookupResult) : ParseResult :=
  match parse_line_regex line with
  | none => ParseResult.skipped
  | some (time_str, ip, lobby_id) =>
    match dateutilParse time_str with
    | none => ParseResult.timeError
    | some time =>
      match lookup ip with
      | LookupResult.unreachable => ParseResult.netCrash
      | LookupResult.response status country =>
        if status = "success" then
          ParseResult.posted (post_location playerName lobby_id country time is_live_session)
        else
          ParseResult.dropped

/-! ## C6: lookup failures -/

/-- Counterexample to C6 as stated: when the geolocation service is
unreachable the failure is NOT recovered locally — `requests.get` (or
reading the body) raises, nothing in `parse_line` or in `main`'s loop
catches it, so the call ends in `netCrash` (the exception propagates and
stops the loop), not in the dropped-and-logged outcome the claim
describes. -/
theorem c6_unreachable_crashes :
    parse_line "p" "2024-01-01T10:00:00|Status: Busy, Ip: 1.2.3.4, shortId: AB12" true
        (fun _ => LookupResult.unreachable) = ParseResult.netCrash
    ∧ ParseResult.netCrash ≠ ParseResult.dropped := by
  exact ⟨by decide, by decide⟩

/-- C6 as amended: for a parsed lobby event, a geolocation response with a
non-success status is recovered locally — the event is dropped (logged,
no notification) and the loop continues; but an unreachable service
raises out of `parse_line` (`netCrash`), so only the non-success-status
half of the original claim holds. -/
theorem c6_lookup_failure_amended (playerName line : String) (live : Bool)
    (lookup : String → LookupResult) (ts ip lobby : String) (t : PyDateTime)
    (h1 : parse_line_regex line = some (ts, ip, lobby))
    (h2 : dateutilParse ts = some t) :
    (∀ status country, lookup ip = LookupResult.response status country →
        status ≠ "success" →
        parse_line playerName line live lookup = ParseResult.dropped)
    ∧ (lookup ip = LookupResult.unreachable →
        parse_line playerName line live lookup = ParseResult.netCrash) := by
  constructor
  · intro status country h3 h4
    simp [parse_line, h1, h2, h3, h4]
  · intro h3
    simp [parse_line, h1, h2, h3]

/-- Witness for C6's amended theorem: a matching line whose lookup answers
with a non-success status is dropped. -/
theorem c6_lookup_failure_amended_witness :
    parse_line "p" "2024-01-01T10:00:00|Status: Busy, Ip: 1.2.3.4, shortId: AB12" true
        (fun _ => LookupResult.response "fail" "X") = ParseResult.dropped :=
  (c6_lookup_failure_amended "p" "2024-01-01T10:00:00|Status: Busy, Ip: 1.2.3.4, shortId: AB12"
      true (fun _ => LookupResult.response "fail" "X")
      "2024-01-01T10:00:00" "1.2.3.4" "AB12" ⟨2024, 1, 1, 10, 0, 0⟩
      (by decide) (by decide)).1 "fail" "X" rfl (by decide)

/-! ## C7: pattern extraction -/

/-- C7: on the spec's test line the interpreter extracts IP `203.0.113.5`,
lobby id `AB12`, and a timestamp text whose parse is the calendar
date-time 2024-01-01T10:00:00 (the `[^|]*` group captures
`"2024-01-01T10:00:00 ... "`, whose trailing spaces and dots the timestamp
parser skips); and any line the pattern does not match is silently
skipped, producing no event. -/
theorem c7_pattern_extraction :
    parse_line_regex
        "2024-01-01T10:00:00 ... Status: Busy, Ip: 203.0.113.5, ... shortId: AB12 ..."
      = some ("2024-01-01T10:00:00 ... ", "203.0.113.5", "AB12")
    ∧ dateutilParse "2024-01-01T10:00:00 ... " = some ⟨2024, 1, 1, 10, 0, 0⟩
    ∧ ∀ (playerName line : String) (live : Bool) (lookup : String → LookupResult),
        parse_line_regex line = none →
          parse_line playerName line live lookup = ParseResult.skipped := by
  refine ⟨by decide, by decide, ?_⟩
  intro playerName line live lookup h
  simp [parse_line, h]

/-- Witness for C7: the skip clause instantiated at a concrete
non-matching line. -/
theorem c7_pattern_extraction_witness :
    parse_line_regex
        "2024-01-01T10:00:00 ... Status: Busy, Ip: 203.0.113.5, ... shortId: AB12 ..."
      = some ("2024-01-01T10:00:00 ... ", "203.0.113.5", "AB12")
    ∧ dateutilParse "2024-01-01T10:00:00 ... " = some ⟨2024, 1, 1, 10, 0, 0⟩
    ∧ parse_line "p" "hello world" true (fun _ => LookupResult.unreachable)
        = ParseResult.skipped :=
  ⟨c7_pattern_extraction.1, c7_pattern_extraction.2.1,
   c7_pattern_extraction.2.2 "p" "hello world" true
     (fun _ => LookupResult.unreachable) (by decide)⟩

/-! ## C8: notifications are sent iff the line was live -/

/-- C8: for a successfully parsed and geolocated event, `parse_line` ends
in `post_location`, whose webhook notification (title = player name,
fields = lobby id and country) is sent iff the line was tagged live; for a
historical line the webhook is `none` and only the local
previous-session log line runs. -/
theorem c8_notify_iff_live (playerName line : String) (live : Bool)
    (lookup : String → LookupResult) (ts ip lobby : String) (t : PyDateTime)
    (country : String)
    (h1 : parse_line_regex line = some (ts, ip, lobby))
    (h2 : dateutilParse ts = some t)
    (h3 : lookup ip = LookupResult.response "success" country) :
    parse_line playerName line live lookup
      = ParseResult.posted (post_location playerName lobby country t live)
    ∧ (post_location playerName lobby country t live).webhook
        = (if live then
             some ⟨playerName, [("Lobby ID", lobby), ("Country", country)]⟩
           else none)
    ∧ (live = false →
        (post_location playerName lobby country t live).webhook = none
        ∧ (post_location playerName lobby country t live).loggedPrevious = true) := by
  refine ⟨by simp [parse_line, h1, h2, h3], ?_, ?_⟩
  · cases live <;> simp [post_location]
  · intro h
    subst h
    simp [post_location]

/-- Witness for C8 at a concrete live event. -/
theorem c8_notify_iff_live_witness :
    parse_line "p" "2024-01-01T10:00:00|Status: Busy, Ip: 1.2.3.4, shortId: AB12" true
        (fun _ => LookupResult.response "success" "Sweden")
      = ParseResult.posted (post_location "p" "AB12" "Sweden" ⟨2024, 1, 1, 10, 0, 0⟩ true)
    ∧ (post_location "p" "AB12" "Sweden" ⟨2024, 1, 1, 10, 0, 0⟩ true).webhook
        = (if true then
             some ⟨"p", [("Lobby ID", "AB12"), ("Country", "Sweden")]⟩
           else none)
    ∧ (true = false →
        (post_location "p" "AB12" "Sweden" ⟨2024, 1, 1, 10, 0, 0⟩ true).webhook = none
        ∧ (post_location "p" "AB12" "Sweden" ⟨2024, 1, 1, 10, 0, 0⟩ true).loggedPrevious
            = true) :=
  c8_notify_iff_live "p" "2024-01-01T10:00:00|Status: Busy, Ip: 1.2.3.4, shortId: AB12"
    true (fun _ => LookupResult.response "success" "Sweden")
    "2024-01-01T10:00:00" "1.2.3.4" "AB12" ⟨2024, 1, 1, 10, 0, 0⟩ "Sweden"
    (by decide) (by decide) rfl

/-! ## The log locator (`get_newest_log_filename`, src/main.py:64-80)

The function scans the entries of `<install>\Logs\`, keeps the entry with
the strictly greatest `st_ctime` (the running maximum starts at `-1`, and
only a strictly greater time replaces it, so the first entry encountered
wins ties), asserts that one was found, and builds
`<install>\Logs\<name>\<prefix> application.log` where `<prefix>` is the
part of the directory name after the first occurrence of the marker
`"log_"` (Python's `str.partition`; empty if the marker is absent). -/

/-- A `os.DirEntry` as used by the locator: its name and its `st_ctime`
(a non-negative timestamp). -/
structure DirEntry where
  name : String
  ctime : Nat
deriving DecidableEq

/-- The locator's scan loop (src/main.py:66-73): running
`(newest_entry, newest_time)` accumulator, starting from `(None, -1)`. -/
def newestScan : List DirEntry → Option DirEntry × Int → Option DirEntry × Int
  | [], acc => acc
  | e :: es, (cur, t) =>
    if (e.ctime : Int) > t then newestScan es (some e, (e.ctime : Int))
    else newestScan es (cur, t)

/-- Characters after the first occurrence of `pat` ( `[]` if absent). -/
def partitionAfterGo (pat : List Char) : List Char → List Char
  | [] => []
  | c :: cs =>
    if pat.isPrefixOf (c :: cs) then (c :: cs).drop pat.length
    else partitionAfterGo pat cs

/-- Python's `s.partition(marker)` third component: the substring after
the first occurrence of `marker`, or `""` when it does not occur. -/
def partitionAfter (marker s : String) : String :=
  String.mk (partitionAfterGo marker.data s.data)

/-- The path built on src/main.py:78-80 for a chosen entry. -/
def logPathFor (installDir : String) (e : DirEntry) : String :=
  installDir ++ "\\Logs\\" ++ e.name ++ "\\"
    ++ partitionAfter "log_" e.name ++ " application.log"

/-- Embedding of `get_newest_log_filename` (src/main.py:64-80) as a
function of the scanned directory entries.  The `assert` on line 75 is the
failure case (`Except.error` with the assertion's message). -/
def get_newest_log_filename (installDir : String) (entries : List DirEntry) :
    Except String String :=
  match (newestScan entries (none, -1)).1 with
  | none => Except.error "no log directories, start EFT before starting this script"
  | some e => Except.ok (logPathFor installDir e)

/-- Scan invariant: starting from a current best `b`, the scan returns
either `b` itself (and nothing in the rest is strictly greater) or the
first entry of the rest strictly greater than everything before it
(including `b`) and at least everything after it. -/
lemma newestScan_go (l : List DirEntry) (b : DirEntry) :
    ∃ r, newestScan l (some b, (b.ctime : Int)) = (some r, (r.ctime : Int))
      ∧ ((r = b ∧ ∀ e ∈ l, e.ctime ≤ b.ctime)
         ∨ ∃ i, l.get? i = some r ∧ b.ctime < r.ctime
              ∧ (∀ e ∈ l.take i, e.ctime < r.ctime)
              ∧ (∀ e ∈ l, e.ctime ≤ r.ctime)) := by
  induction l generalizing b with
  | nil => exact ⟨b, rfl, Or.inl ⟨rfl, by simp⟩⟩
  | cons e es ih =>
      by_cases h : b.ctime < e.ctime
      · have step : newestScan (e :: es) (some b, (b.ctime : Int))
            = newestScan es (some e, (e.ctime : Int)) := by
          simp only [newestScan]
          rw [if_pos (by exact_mod_cast h)]
        obtain ⟨r, hr, hcase⟩ := ih e
        refine ⟨r, by rw [step, hr], ?_⟩
        rcases hcase with ⟨rfl, hall⟩ | ⟨i, hi, hlt, htake, hall⟩
        · refine Or.inr ⟨0, rfl, h, by simp, ?_⟩
          intro x hx
          rcases List.mem_cons.mp hx with rfl | hx'
          · exact le_refl _
          · exact hall x hx'
        · refine Or.inr ⟨i + 1, by simpa using hi, lt_trans h hlt, ?_, ?_⟩
          · intro x hx
            rw [List.take_succ_cons] at hx
            rcases List.mem_cons.mp hx with rfl | hx'
            · exact hlt
            · exact htake x hx'
          · intro x hx
            rcases List.mem_cons.mp hx with rfl | hx'
            · exact le_of_lt hlt
            · exact hall x hx'
      · have step : newestScan (e :: es) (some b, (b.ctime : Int))
            = newestScan es (some b, (b.ctime : Int)) := by
          simp only [newestScan]
          rw [if_neg (by exact_mod_cast h)]
        obtain ⟨r, hr, hcase⟩ := ih b
        refine ⟨r, by rw [step, hr], ?_⟩
        rcases hcase with ⟨rfl, hall⟩ | ⟨i, hi, hlt, htake, hall⟩
        · refine Or.inl ⟨rfl, ?_⟩
          intro x hx
          rcases List.mem_cons.mp hx with rfl | hx'
          · omega
          · exact hall x hx'
        · refine Or.inr ⟨i + 1, by simpa using hi, hlt, ?_, ?_⟩
          · intro x hx
            rw [List.take_succ_cons] at hx
            rcases List.mem_cons.mp hx with rfl | hx'
            · omega
            · exact htake x hx'
          · intro x hx
            rcases List.mem_cons.mp hx with rfl | hx'
            · omega
            · exact hall x hx'

/-- C9: on a non-empty list of entries the locator returns
`Except.ok` of the path built from the entry with the greatest creation
timestamp — on ties the first one encountered (everything strictly before
the chosen index is strictly smaller) — where the filename is the
directory-name substring after the `"log_"` marker concatenated with the
fixed suffix `" application.log"` (see `logPathFor`); and on an empty
list it fails with the no-log-directory error instead of returning a
path. -/
theorem c9_locator_newest (installDir : String) (entries : List DirEntry)
    (hne : entries ≠ []) :
    (∃ best i, get_newest_log_filename installDir entries
          = Except.ok (logPathFor installDir best)
        ∧ entries.get? i = some best
        ∧ (∀ e ∈ entries, e.ctime ≤ best.ctime)
        ∧ (∀ e ∈ entries.take i, e.ctime < best.ctime))
    ∧ get_newest_log_filename installDir []
        = Except.error "no log directories, start EFT before starting this script" := by
  refine ⟨?_, rfl⟩
  match entries, hne with
  | e :: es, _ =>
    have step : newestScan (e :: es) (none, -1)
        = newestScan es (some e, (e.ctime : Int)) := by
      simp only [newestScan]
      rw [if_pos (by omega : ((e.ctime : Nat) : Int) > -1)]
    obtain ⟨r, hr, hcase⟩ := newestScan_go es e
    have hok : get_newest_log_filename installDir (e :: es)
        = Except.ok (logPathFor installDir r) := by
      unfold get_newest_log_filename
      rw [step, hr]
    rcases hcase with ⟨rfl, hall⟩ | ⟨i, hi, hlt, htake, hall⟩
    · refine ⟨r, 0, hok, rfl, ?_, by simp⟩
      intro x hx
      rcases List.mem_cons.mp hx with rfl | hx'
      · exact le_refl _
      · exact hall x hx'
    · refine ⟨r, i + 1, hok, by simpa using hi, ?_, ?_⟩
      · intro x hx
        rcases List.mem_cons.mp hx with rfl | hx'
        · exact le_of_lt hlt
        · exact hall x hx'
      · intro x hx
        rw [List.take_succ_cons] at hx
        rcases List.mem_cons.mp hx with rfl | hx'
        · exact hlt
        · exact htake x hx'

/-- Witness for C9 at a concrete directory listing: the newest of three
entries (with one tie, resolved to the first encountered) is selected and
its name is turned into the data-file path. -/
theorem c9_locator_newest_witness :
    (∃ best i, get_newest_log_filename "C:"
          [⟨"log_2024.01.01_old", 5⟩, ⟨"log_2024.01.02_new", 9⟩, ⟨"log_2024.01.02_dup", 9⟩]
          = Except.ok (logPathFor "C:" best)
        ∧ [DirEntry.mk "log_2024.01.01_old" 5, DirEntry.mk "log_2024.01.02_new" 9,
           DirEntry.mk "log_2024.01.02_dup" 9].get? i = some best
        ∧ (∀ e ∈ [DirEntry.mk "log_2024.01.01_old" 5, DirEntry.mk "log_2024.01.02_new" 9,
                  DirEntry.mk "log_2024.01.02_dup" 9], e.ctime ≤ best.ctime)
        ∧ (∀ e ∈ [DirEntry.mk "log_2024.01.01_old" 5, DirEntry.mk "log_2024.01.02_new" 9,
                  DirEntry.mk "log_2024.01.02_dup" 9].take i, e.ctime < best.ctime))
    ∧ get_newest_log_filename "C:" []
        = Except.error "no log directories, start EFT before starting this script" :=
  c9_locator_newest "C:"
    [⟨"log_2024.01.01_old", 5⟩, ⟨"log_2024.01.02_new", 9⟩, ⟨"log_2024.01.02_dup", 9⟩]
    (by decide)
